import Mathlib

set_option maxHeartbeats 1000000

/-!
Verification of the rabata terraform provider (rabata package: bucket and
bucket-object CRUD handlers) against its natural-language specification.

The Go sources are shallowly embedded: each handler becomes a pure Lean
function from an explicit environment (the outcomes that the remote S3
endpoint, the filesystem, and the retry clock would produce) and a
ResourceData record to a triple of diagnostics, updated ResourceData and
the list of network calls the handler issued, in order.
-/

/-- Go `error` values as they appear in this code base.
`aws code message status` models an `awserr.Error`; `status = some n`
means the value also implements `awserr.RequestFailure` with that HTTP
status code.  `timeoutNoLast` is a `retry.TimeoutError` whose `LastError`
field is nil.  `wrapped ctx e` is `fmt.Errorf("...: %w", e)`. -/
inductive GoError where
  | aws (code : String) (message : String) (status : Option Nat)
  | timeoutNoLast
  | wrapped (ctx : String) (inner : GoError)
  | other (msg : String)
deriving Repr, DecidableEq

/-- `errors.As(err, &awsErr)` for `awserr.Error`: unwraps `fmt.Errorf` chains
and yields code, message and (when the value is a RequestFailure) status. -/
def GoError.asAWS : GoError → Option (String × String × Option Nat)
  | .aws c m s => some (c, m, s)
  | .wrapped _ e => e.asAWS
  | _ => none

/-- `errors.As(err, &awsErr)` for `awserr.RequestFailure`: yields the HTTP
status code when the (possibly wrapped) error is a request failure. -/
def GoError.asReqFailure : GoError → Option Nat
  | .aws _ _ (some s) => some s
  | .wrapped _ e => e.asReqFailure
  | _ => none

/-- `errors.As(err, &timeoutErr) && timeoutErr.LastError == nil`. -/
def GoError.isTimeoutNoLast : GoError → Bool
  | .timeoutNoLast => true
  | .wrapped _ e => e.isTimeoutNoLast
  | _ => false

/-- Whether `sub` occurs as a contiguous run at the start of `l`. -/
def charsStartWith : List Char → List Char → Bool
  | [], _ => true
  | _ :: _, [] => false
  | a :: as, b :: bs => a == b && charsStartWith as bs

/-- `strings.Contains`: whether `sub` occurs contiguously inside `hay`. -/
def charsContain (hay sub : List Char) : Bool :=
  match hay with
  | [] => charsStartWith sub []
  | _ :: rest => charsStartWith sub hay || charsContain rest sub

/-- `isAWSErr` from rabata/awserr.go: err is an `awserr.Error` whose code
equals `code` and whose message contains `message`. -/
def isAWSErr (err : Option GoError) (code message : String) : Bool :=
  match err with
  | some e =>
    match e.asAWS with
    | some (c, m, _) => c == code && charsContain m.data message.data
    | none => false
  | none => false

/-- `isAWSErrRequestFailureStatusCode` from rabata/awserr.go. -/
def isAWSErrRequestFailureStatusCode (err : Option GoError) (statusCode : Nat) : Bool :=
  match err with
  | some e =>
    match e.asReqFailure with
    | some s => s == statusCode
    | none => false
  | none => false

/-- `isResourceTimeoutError` from rabata/utils.go: the error is a
`retry.TimeoutError` whose `LastError` is nil. -/
def isResourceTimeoutError : Option GoError → Bool
  | some e => e.isTimeoutNoLast
  | none => false

/-- What one invocation of the function passed to `retry.RetryContext`
reported: success (nil RetryError), `retry.RetryableError e`, or
`retry.NonRetryableError e`. -/
inductive RetryDecision where
  | success
  | retryable (e : GoError)
  | nonRetryable (e : GoError)
deriving Repr, DecidableEq

/-- Modelled from the terraform-plugin-sdk helper `retry.RetryContext`
(vendored dependency, not part of this repository): the wrapped function is
invoked repeatedly; a non-retryable outcome or a success ends the loop at
once; retryable outcomes are retried until the deadline.  `attempts` lists
the outcomes of the invocations that complete before the deadline expires.
When the deadline expires the helper returns the inner error of the last
retryable outcome if one completed (`resultErr` in the SDK source), and a
`TimeoutError` with nil `LastError` if no invocation completed.  The second
component counts the completed invocations consumed. -/
def retryContextGo (classify : α → RetryDecision) :
    List α → Option GoError → Option GoError × Nat
  | [], acc =>
    (match acc with
     | some last => some last
     | none => some GoError.timeoutNoLast, 0)
  | a :: rest, acc =>
    match classify a with
    | .success => (none, 1)
    | .nonRetryable e => (some e, 1)
    | .retryable e =>
      let r := retryContextGo classify rest (some e)
      (r.1, r.2 + 1)

/-- `retry.RetryContext` run from a fresh state. -/
def retryContextRun (classify : α → RetryDecision) (attempts : List α) :
    Option GoError × Nat :=
  retryContextGo classify attempts none

/-- Byte length of a Go string (Go `len` counts UTF-8 bytes). -/
def goStrLen (l : List Char) : Nat := (l.map Char.utf8Size).sum

/-- One character of the class `[0-9a-z-.]` from `validateS3BucketName`. -/
def validBucketChar (c : Char) : Bool :=
  c.isDigit || c.isLower || c == '-' || c == '.'

/-- Splitting a character list at every period (`.`), keeping empty parts. -/
def splitOnDot : List Char → List (List Char)
  | [] => [[]]
  | c :: rest =>
    let r := splitOnDot rest
    if c == '.' then [] :: r
    else
      match r with
      | [] => [[c]]
      | p :: ps => (c :: p) :: ps

/-- The regular expression `^(?:[0-9]{1,3}\.){3}[0-9]{1,3}$`: four runs of
one to three digits separated by single periods. -/
def isIPv4Shaped (l : List Char) : Bool :=
  let parts := splitOnDot l
  parts.length == 4 &&
    parts.all fun p => !p.isEmpty && decide (p.length ≤ 3) && p.all Char.isDigit

/-- `strings.Contains(value, "..")`: two adjacent periods. -/
def hasDoubleDot : List Char → Bool
  | [] => false
  | [_] => false
  | a :: b :: rest => (a == '.' && b == '.') || hasDoubleDot (b :: rest)

/-- Which of the six checks of `validateS3BucketName` rejected the name. -/
inductive BucketNameIssue where
  | badLength
  | badCharset
  | ipShaped
  | leadingDot
  | trailingDot
  | adjacentDots
deriving Repr, DecidableEq

/-- `validateS3BucketName` from rabata/resource_rabata_s3_bucket.go:
length 3..63 bytes, characters from `[0-9a-z-.]` (the regex `+` also
requires a non-empty string), not shaped like an IPv4 address, no leading
or trailing period, no two consecutive periods.  Returns the first failing
check, `none` when the name is accepted. -/
def validateS3BucketName (value : String) : Option BucketNameIssue :=
  let l := value.data
  if goStrLen l < 3 || 63 < goStrLen l then some .badLength
  else if !(!l.isEmpty && l.all validBucketChar) then some .badCharset
  else if isIPv4Shaped l then some .ipShaped
  else if l.head? == some '.' then some .leadingDot
  else if l.getLast? == some '.' then some .trailingDot
  else if hasDoubleDot l then some .adjacentDots
  else none

example : (validateS3BucketName "My_Bucket").isSome := by decide

example : validateS3BucketName "my-bucket.1" = none := by decide

example : (validateS3BucketName "192.168.0.1") = some .ipShaped := by decide

example : (validateS3BucketName "ab").isSome := by decide

example : (validateS3BucketName "a..b").isSome := by decide

/-- Network calls issued by the bucket create handler. -/
inductive BucketEvent where
  | createBucket (result : Option GoError)
deriving Repr, DecidableEq

/-- Environment of one run of `resourceRabataS3BucketCreate`: the outcomes of
the successive `CreateBucketWithContext` calls that complete inside the
5-minute retry deadline, and the outcome the endpoint would give to the one
post-timeout call. -/
structure CreateBucketBehavior where
  attempts : List (Option GoError)
  extra : Option GoError
deriving Repr

instance : Inhabited CreateBucketBehavior := ⟨⟨[], none⟩⟩

/-- The closure passed to `retry.RetryContext` inside
`resourceRabataS3BucketCreate`: an `OperationAborted` AWS error is
retryable (wrapped with a context message), any other error is
non-retryable, nil is success. -/
def createClassify (res : Option GoError) : RetryDecision :=
  match res with
  | none => .success
  | some e =>
    if isAWSErr (some e) "OperationAborted" "" then
      .retryable (.wrapped "error creating S3 bucket, retrying" e)
    else .nonRetryable e

/-- The literal `5*time.Minute` budget of the create retry loop. -/
def s3BucketCreateRetryMinutes : Nat := 5

/-- `resourceRabataS3BucketCreate` from rabata/resource_rabata_s3_bucket.go,
for an explicitly configured bucket name (the `bucket_prefix` /
generated-name branches and the ACL request field are identity-irrelevant
here and the trailing delegation to Update/Read is cut off at the point
where the create either failed or set the resource id).  Returns the error
diagnostics (`none` = success) and the `CreateBucket` calls issued. -/
def resourceRabataS3BucketCreate (bucket : String) (beh : CreateBucketBehavior) :
    Option String × List BucketEvent :=
  if (validateS3BucketName bucket).isSome then
    (some "error validating S3 bucket name", [])
  else
    let run := retryContextRun createClassify beh.attempts
    let events := (beh.attempts.take run.2).map BucketEvent.createBucket
    let post :=
      if isResourceTimeoutError run.1 then
        (beh.extra, events ++ [BucketEvent.createBucket beh.extra])
      else (run.1, events)
    match post.1 with
    | some _ => (some "error creating S3 bucket", post.2)
    | none => (none, post.2)

theorem goStrLen_nil : goStrLen [] = 0 := rfl

theorem validate_isSome_iff (value : String) :
    (validateS3BucketName value).isSome ↔
      (goStrLen value.data < 3 ∨ 63 < goStrLen value.data ∨
       (∃ c ∈ value.data, validBucketChar c = false) ∨
       isIPv4Shaped value.data = true ∨
       value.data.head? = some '.' ∨
       value.data.getLast? = some '.' ∨
       hasDoubleDot value.data = true) := by
  unfold validateS3BucketName
  by_cases h1 : goStrLen value.data < 3
  · simp [h1]
  by_cases h2 : 63 < goStrLen value.data
  · simp [h1, h2]
  have hne : value.data ≠ [] := by
    intro h
    rw [h] at h1
    exact h1 (by norm_num [goStrLen_nil])
  have hne' : value.data.isEmpty = false := by
    simpa [List.isEmpty_iff] using hne
  by_cases h3 : value.data.all validBucketChar = true
  · by_cases h4 : isIPv4Shaped value.data = true
    · simp [h1, h2, hne', h3, h4]
    by_cases h5 : value.data.head? = some '.'
    · simp [h1, h2, hne', h3, h4, h5]
    by_cases h6 : value.data.getLast? = some '.'
    · simp [h1, h2, hne', h3, h4, h5, h6]
    by_cases h7 : hasDoubleDot value.data = true
    · simp [h1, h2, hne', h3, h4, h5, h6, h7]
    · have h3' := h3
      simp only [List.all_eq_true] at h3'
      simp only [h1, h2, hne', h3, h4, h5, h6, h7]
      simp [h1, h2, hne', h3, h4, h5, h6, h7]
      exact h3'
  · have hex : ∃ c ∈ value.data, validBucketChar c = false := by
      simpa [List.all_eq_true] using h3
    simp [h1, h2, hne', h3, hex]

/-- Claim C1: `validateS3BucketName` rejects exactly the names of byte
length below 3 or above 63, or containing a character outside
`[0-9a-z-.]`, or shaped like an IPv4 address, or starting or ending with a
period, or containing two consecutive periods; bucket Create runs this
validation before issuing any `CreateBucket` call (an invalid name produces
a validation error and an empty call trace); `My_Bucket` is rejected and
`my-bucket.1` is accepted. -/
theorem claim_C1_bucket_name_validation :
    (∀ value : String,
      (validateS3BucketName value).isSome ↔
        (goStrLen value.data < 3 ∨ 63 < goStrLen value.data ∨
         (∃ c ∈ value.data, validBucketChar c = false) ∨
         isIPv4Shaped value.data = true ∨
         value.data.head? = some '.' ∨
         value.data.getLast? = some '.' ∨
         hasDoubleDot value.data = true))
    ∧ (∀ (bucket : String) (beh : CreateBucketBehavior),
        (validateS3BucketName bucket).isSome →
        resourceRabataS3BucketCreate bucket beh =
          (some "error validating S3 bucket name", []))
    ∧ (validateS3BucketName "My_Bucket").isSome
    ∧ validateS3BucketName "my-bucket.1" = none := by
  refine ⟨validate_isSome_iff, ?_, by decide, by decide⟩
  intro bucket beh h
  simp [resourceRabataS3BucketCreate, h]

/-- Witness for C1 at concrete inputs: the invalid name `My_Bucket`
satisfies the rejection condition, and create with it issues no call. -/
theorem claim_C1_witness :
    (validateS3BucketName "My_Bucket").isSome
    ∧ resourceRabataS3BucketCreate "My_Bucket" default =
        (some "error validating S3 bucket name", []) := by
  refine ⟨claim_C1_bucket_name_validation.2.2.1, ?_⟩
  exact claim_C1_bucket_name_validation.2.1 "My_Bucket" default
    claim_C1_bucket_name_validation.2.2.1

/-- The code of an error, when `errors.As(err, &awsErr)` succeeds. -/
def awsCode? (e : GoError) : Option String := e.asAWS.map fun x => x.1

/-- The literal `2*time.Minute` deadline of `retryOnAWSCode`. -/
def retryOnAWSCodeMinutes : Nat := 2

/-- `retryOnAWSCode` from rabata/awserr.go.  `attempts` lists the
`(resp, err)` pairs produced by the successive invocations of `f` that
complete within the 2-minute deadline.  An invocation whose error is an
AWS error with exactly the given code is retryable; any other error ends
the loop at once with that `(resp, err)`; a nil error ends it with
`(resp, nil)`.  On deadline exhaustion the last retryable pair is
surfaced (`resultErr` in the SDK retry helper), or a `TimeoutError` with
nil `LastError` when no invocation completed.  The second component
counts the invocations of `f` consumed. -/
def retryOnAWSCodeGo (code : String) :
    List (α × Option GoError) → Option (α × GoError) →
    (Option α × Option GoError) × Nat
  | [], acc =>
    (match acc with
     | some (a, e) => (some a, some e)
     | none => (none, some GoError.timeoutNoLast), 0)
  | (a, res) :: rest, acc =>
    match res with
    | none => ((some a, none), 1)
    | some e =>
      if awsCode? e == some code then
        let r := retryOnAWSCodeGo code rest (some (a, e))
        (r.1, r.2 + 1)
      else ((some a, some e), 1)

/-- `retryOnAWSCode` run from a fresh state. -/
def retryOnAWSCode (code : String) (attempts : List (α × Option GoError)) :
    (Option α × Option GoError) × Nat :=
  retryOnAWSCodeGo code attempts none

/-- An invocation outcome that `retryOnAWSCode code` retries: an error
that is an AWS error with exactly the matching code. -/
def retryableFor (code : String) (p : α × Option GoError) : Prop :=
  ∃ e, p.2 = some e ∧ awsCode? e = some code

theorem retryOnAWSCodeGo_immediate (code : String) (x : α × Option GoError) :
    ∀ (pre : List (α × Option GoError)) (rest : List (α × Option GoError))
      (acc : Option (α × GoError)),
      (∀ y ∈ pre, retryableFor code y) → ¬ retryableFor code x →
      retryOnAWSCodeGo code (pre ++ x :: rest) acc =
        ((some x.1, x.2), pre.length + 1) := by
  intro pre
  induction pre with
  | nil =>
    intro rest acc _ hx
    obtain ⟨a, res⟩ := x
    match res with
    | none => rfl
    | some e =>
      have hcode : (awsCode? e == some code) = false := by
        rcases h : awsCode? e == some code with _ | _
        · rfl
        · exact absurd ⟨e, rfl, by simpa using h⟩ hx
      simp [retryOnAWSCodeGo, hcode]
  | cons y pre ih =>
    intro rest acc hpre hx
    obtain ⟨a, res⟩ := y
    obtain ⟨e, he, hc⟩ := hpre ⟨a, res⟩ (List.mem_cons_self _ _)
    simp only at he
    subst he
    have hcode : (awsCode? e == some code) = true := by simpa using hc
    simp only [List.cons_append, retryOnAWSCodeGo, hcode, if_true, List.append_eq]
    rw [ih rest (some (a, e)) (fun z hz => hpre z (List.mem_cons_of_mem _ hz)) hx]
    simp [List.length_cons]

theorem retryOnAWSCodeGo_exhaust (code : String) (last : α × Option GoError) :
    ∀ (pre : List (α × Option GoError)) (acc : Option (α × GoError)),
      (∀ y ∈ pre ++ [last], retryableFor code y) →
      retryOnAWSCodeGo code (pre ++ [last]) acc =
        ((some last.1, last.2), pre.length + 1) := by
  intro pre
  induction pre with
  | nil =>
    intro acc hall
    obtain ⟨a, res⟩ := last
    obtain ⟨e, he, hc⟩ := hall ⟨a, res⟩ (by simp)
    simp only at he
    subst he
    have hcode : (awsCode? e == some code) = true := by simpa using hc
    simp [retryOnAWSCodeGo, hcode]
  | cons y pre ih =>
    intro acc hall
    obtain ⟨a, res⟩ := y
    obtain ⟨e, he, hc⟩ := hall ⟨a, res⟩ (List.mem_cons_self _ _)
    simp only at he
    subst he
    have hcode : (awsCode? e == some code) = true := by simpa using hc
    simp only [List.cons_append, retryOnAWSCodeGo, hcode, if_true, List.append_eq]
    rw [ih (some (a, e)) (fun z hz => hall z (List.mem_cons_of_mem _ hz))]
    simp [List.length_cons]

/-- Claim C8: `retryOnAWSCode ctx X f` re-invokes `f` only while `f`
errors with an AWS error whose code is exactly `X`, under the fixed
2-minute deadline; the first outcome that is not such an error ends the
loop at once — a success returns `f`'s result, a mismatching (or
non-AWS) error is returned immediately with no further attempts; when
every completed invocation was retryable, the deadline ends the loop
after exactly those invocations, surfacing the last pair. -/
theorem claim_C8_retry_on_aws_code (code : String) :
    (∀ (pre rest : List (Nat × Option GoError)) (x : Nat × Option GoError),
      (∀ y ∈ pre, retryableFor code y) → ¬ retryableFor code x →
      retryOnAWSCode code (pre ++ x :: rest) = ((some x.1, x.2), pre.length + 1))
    ∧ (∀ (pre : List (Nat × Option GoError)) (last : Nat × Option GoError),
      (∀ y ∈ pre ++ [last], retryableFor code y) →
      retryOnAWSCode code (pre ++ [last]) = ((some last.1, last.2), pre.length + 1))
    ∧ retryOnAWSCodeMinutes = 2 := by
  refine ⟨?_, ?_, rfl⟩
  · intro pre rest x hpre hx
    exact retryOnAWSCodeGo_immediate code x pre rest none hpre hx
  · intro pre last hall
    exact retryOnAWSCodeGo_exhaust code last pre none hall

/-- Witness for C8 at concrete inputs: one retryable `OperationAborted`
outcome followed by a mismatching error stops after two calls returning
the second error; two retryable outcomes exhaust the deadline surfacing
the second. -/
theorem claim_C8_witness :
    retryOnAWSCode "OperationAborted"
        [(1, some (GoError.aws "OperationAborted" "" none)),
         (2, some (GoError.aws "AccessDenied" "" none))] =
      ((some 2, some (GoError.aws "AccessDenied" "" none)), 2)
    ∧ retryOnAWSCode "OperationAborted"
        [(1, some (GoError.aws "OperationAborted" "" none)),
         (2, some (GoError.aws "OperationAborted" "" none))] =
      ((some 2, some (GoError.aws "OperationAborted" "" none)), 2) := by
  constructor
  · have h := (claim_C8_retry_on_aws_code "OperationAborted").1
      [(1, some (GoError.aws "OperationAborted" "" none))] []
      (2, some (GoError.aws "AccessDenied" "" none))
      (by
        intro y hy
        simp only [List.mem_singleton] at hy
        subst hy
        exact ⟨GoError.aws "OperationAborted" "" none, rfl, rfl⟩)
      (by
        rintro ⟨e, he, hc⟩
        simp only at he
        cases he
        simp [awsCode?, GoError.asAWS] at hc)
    exact h
  · have h := (claim_C8_retry_on_aws_code "OperationAborted").2.1
      [(1, some (GoError.aws "OperationAborted" "" none))]
      (2, some (GoError.aws "OperationAborted" "" none))
      (by
        intro y hy
        simp only [List.mem_append, List.mem_singleton] at hy
        rcases hy with hy | hy <;>
          · subst hy
            exact ⟨GoError.aws "OperationAborted" "" none, rfl, rfl⟩)
    exact h

/-- Network calls issued by the delete-side handlers, with raw outcomes. -/
inductive S3Event where
  | deleteBucket (result : Option GoError)
  | deleteObject (key : String) (result : Option GoError)
  | listObjects (result : Option GoError)
deriving Repr, DecidableEq

/-- A remote S3 endpoint as the delete-side handlers observe it: every
operation maps the remote state to an outcome and a successor state.
`listObjectsV2Pages` yields the pages the paginated listing delivers and
the error, if any, the listing call ends with. -/
structure S3Conn (σ : Type) where
  deleteBucket : σ → Option GoError × σ
  deleteObject : String → σ → Option GoError × σ
  listObjectsV2Pages : σ → (Option GoError × List (List String)) × σ

/-- `deleteS3ObjectVersion` from the bucket-object source file: one
`DeleteObject` call whose `NoSuchBucket` / `NoSuchKey` failures are
swallowed.  `v` and `force` only populate the request fields `VersionId`
and `BypassGovernanceRetention` and do not alter the control flow. -/
def deleteS3ObjectVersion (conn : S3Conn σ) (k v : String) (force : Bool) (st : σ) :
    Option GoError × σ × List S3Event :=
  let r := conn.deleteObject k st
  let ret :=
    if isAWSErr r.1 "NoSuchBucket" "" || isAWSErr r.1 "NoSuchKey" "" then none
    else r.1
  (ret, r.2, [S3Event.deleteObject k r.1])

/-- The body of the page callback in `deleteAllS3Objects`: every
enumerated object is deleted via `deleteS3ObjectVersion` (keys other than
`key` are skipped when `key` is non-empty) and the last per-object
failure is remembered; no failure stops the walk. -/
def sweepPage (conn : S3Conn σ) (key : String) (force : Bool) :
    List String → σ → Option GoError → σ × Option GoError × List S3Event
  | [], st, lastErr => (st, lastErr, [])
  | k :: ks, st, lastErr =>
    if key != "" && key != k then sweepPage conn key force ks st lastErr
    else
      let d := deleteS3ObjectVersion conn k "" force st
      let lastErr2 := match d.1 with
        | none => lastErr
        | some e => some e
      let r := sweepPage conn key force ks d.2.1 lastErr2
      (r.1, r.2.1, d.2.2 ++ r.2.2)

/-- The page callback applied to every delivered page in order (the
callback always returns `!lastPage`, so no page is skipped). -/
def sweepPages (conn : S3Conn σ) (key : String) (force : Bool) :
    List (List String) → σ → Option GoError → σ × Option GoError × List S3Event
  | [], st, lastErr => (st, lastErr, [])
  | p :: ps, st, lastErr =>
    let r := sweepPage conn key force p st lastErr
    let r2 := sweepPages conn key force ps r.1 r.2.1
    (r2.1, r2.2.1, r.2.2 ++ r2.2.2)

/-- `deleteAllS3Objects` from the bucket-object source file: paginated
listing, per-object deletion with last-error accumulation, `NoSuchBucket`
listing failures swallowed, and (with `ignoreObjectErrors` unset) a final
error wrapping the last per-object failure.  The second
version/delete-marker epilogue in the source is unreachable — by that
point `err` is nil and `lastErr` has been reset — and therefore adds
nothing here. -/
def deleteAllS3Objects (conn : S3Conn σ) (key : String)
    (force ignoreObjectErrors : Bool) (st : σ) :
    Option GoError × σ × List S3Event :=
  let lr := conn.listObjectsV2Pages st
  let listErr := lr.1.1
  let pages := lr.1.2
  let sw := sweepPages conn key force pages lr.2 none
  let events := S3Event.listObjects listErr :: sw.2.2
  let err := if isAWSErr listErr "NoSuchBucket" "" then none else listErr
  if err.isSome then (err, sw.1, events)
  else if sw.2.1.isSome && !ignoreObjectErrors then
    (sw.2.1.map (GoError.wrapped "error deleting at least one object version, last error"),
      sw.1, events)
  else (none, sw.1, events)

/-- `resourceRabataS3BucketDelete` from
rabata/resource_rabata_s3_bucket.go: one `DeleteBucket` call;
`NoSuchBucket` is success; `BucketNotEmpty` with `force_destroy` sweeps
all objects and recurses; any other failure is a diagnostic.  The source
recursion is unbounded (it converges only because the remote bucket
empties), so the model recurses on explicit `fuel`. -/
def resourceRabataS3BucketDelete (conn : S3Conn σ) (forceDestroy : Bool) :
    Nat → σ → Option String × σ × List S3Event
  | 0, st => (some "recursion fuel exhausted", st, [])
  | fuel + 1, st =>
    let r := conn.deleteBucket st
    let ev0 := [S3Event.deleteBucket r.1]
    if isAWSErr r.1 "NoSuchBucket" "" then (none, r.2, ev0)
    else if isAWSErr r.1 "BucketNotEmpty" "" && forceDestroy then
      let da := deleteAllS3Objects conn "" false false r.2
      match da.1 with
      | some _ => (some "error S3 Bucket force_destroy", da.2.1, ev0 ++ da.2.2)
      | none =>
        let rr := resourceRabataS3BucketDelete conn forceDestroy fuel da.2.1
        (rr.1, rr.2.1, ev0 ++ da.2.2 ++ rr.2.2)
    else
      match r.1 with
      | some _ => (some "error deleting S3 Bucket", r.2, ev0)
      | none => (none, r.2, ev0)

/-- Remote S3 state for the concrete endpoint: whether the bucket exists
and the keys it currently holds, in listing order. -/
structure S3World where
  bucketExists : Bool
  objects : List String
deriving Repr, DecidableEq

/-- The AWS error a missing bucket produces. -/
def noSuchBucketErr : GoError := .aws "NoSuchBucket" "" (some 404)

/-- The AWS error deleting a non-empty bucket produces. -/
def bucketNotEmptyErr : GoError := .aws "BucketNotEmpty" "" (some 409)

/-- A faithful S3 endpoint: `DeleteBucket` fails with `NoSuchBucket` /
`BucketNotEmpty` as appropriate and otherwise removes the bucket;
`DeleteObject` removes the key (deleting an absent key succeeds, as S3
does); listing returns the current keys split into pages by the
pagination `pg`. -/
def faithfulConn (pg : List String → List (List String)) : S3Conn S3World where
  deleteBucket st :=
    if !st.bucketExists then (some noSuchBucketErr, st)
    else if !st.objects.isEmpty then (some bucketNotEmptyErr, st)
    else (none, { st with bucketExists := false })
  deleteObject k st :=
    if !st.bucketExists then (some noSuchBucketErr, st)
    else (none, { st with objects := st.objects.erase k })
  listObjectsV2Pages st :=
    if !st.bucketExists then ((some noSuchBucketErr, []), st)
    else ((none, pg st.objects), st)

theorem isAWSErr_none (code msg : String) : isAWSErr none code msg = false := rfl

theorem key_filter_empty (k : String) :
    (("" : String) != "" && ("" : String) != k) = false := rfl

/-- Claim C2: deleting a remote-absent bucket or object reports success:
the bucket Delete handler returns nil diagnostics when `DeleteBucket`
fails with code `NoSuchBucket`, and `deleteS3ObjectVersion` returns nil
when `DeleteObject` fails with `NoSuchBucket` or `NoSuchKey`. -/
theorem claim_C2_idempotent_delete :
    (∀ (σ : Type) (conn : S3Conn σ) (forceDestroy : Bool) (fuel : Nat) (st : σ)
      (e : GoError),
      (conn.deleteBucket st).1 = some e →
      isAWSErr (some e) "NoSuchBucket" "" = true →
      (resourceRabataS3BucketDelete conn forceDestroy (fuel + 1) st).1 = none)
    ∧ (∀ (σ : Type) (conn : S3Conn σ) (k v : String) (force : Bool) (st : σ)
      (e : GoError),
      (conn.deleteObject k st).1 = some e →
      (isAWSErr (some e) "NoSuchBucket" "" || isAWSErr (some e) "NoSuchKey" "") = true →
      (deleteS3ObjectVersion conn k v force st).1 = none) := by
  constructor
  · intro σ conn forceDestroy fuel st e hdel hns
    unfold resourceRabataS3BucketDelete
    simp [hdel, hns]
  · intro σ conn k v force st e hdel hcode
    unfold deleteS3ObjectVersion
    simp [hdel, hcode]

/-- An endpoint where the bucket and the object are already gone. -/
def c2Conn : S3Conn Unit where
  deleteBucket _ := (some noSuchBucketErr, ())
  deleteObject _ st := (some (GoError.aws "NoSuchKey" "" (some 404)), st)
  listObjectsV2Pages st := ((none, []), st)

/-- Witness for C2: both delete paths succeed against `c2Conn`. -/
theorem claim_C2_witness :
    (resourceRabataS3BucketDelete c2Conn false 1 ()).1 = none
    ∧ (deleteS3ObjectVersion c2Conn "k" "" false ()).1 = none := by
  refine ⟨?_, ?_⟩
  · exact claim_C2_idempotent_delete.1 Unit c2Conn false 0 () noSuchBucketErr rfl
      (by decide)
  · exact claim_C2_idempotent_delete.2 Unit c2Conn "k" "" false ()
      (GoError.aws "NoSuchKey" "" (some 404)) rfl (by decide)

theorem deleteObjectVersion_faithful (pg : List String → List (List String))
    (k : String) (tail : List String) :
    deleteS3ObjectVersion (faithfulConn pg) k "" false ⟨true, k :: tail⟩ =
      (none, ⟨true, tail⟩, [S3Event.deleteObject k none]) := by
  simp [deleteS3ObjectVersion, faithfulConn, List.erase_cons_head, isAWSErr_none]

theorem sweepPage_faithful (pg : List String → List (List String)) :
    ∀ (page rest : List String) (acc : Option GoError),
      sweepPage (faithfulConn pg) "" false page ⟨true, page ++ rest⟩ acc =
        (⟨true, rest⟩, acc, page.map fun k => S3Event.deleteObject k none) := by
  intro page
  induction page with
  | nil => intro rest acc; rfl
  | cons k page ih =>
    intro rest acc
    have hd := deleteObjectVersion_faithful pg k (page ++ rest)
    simp [sweepPage, key_filter_empty, hd, ih]

theorem sweepPages_faithful (pg : List String → List (List String)) :
    ∀ (pages : List (List String)) (acc : Option GoError),
      sweepPages (faithfulConn pg) "" false pages ⟨true, pages.flatten⟩ acc =
        (⟨true, []⟩, acc, pages.flatten.map fun k => S3Event.deleteObject k none) := by
  intro pages
  induction pages with
  | nil => intro acc; rfl
  | cons p ps ih =>
    intro acc
    have hp := sweepPage_faithful pg p ps.flatten acc
    simp [sweepPages, List.flatten_cons, hp, ih]

theorem deleteAll_faithful (pg : List String → List (List String))
    (objs : List String) (hpg : (pg objs).flatten = objs) :
    deleteAllS3Objects (faithfulConn pg) "" false false ⟨true, objs⟩ =
      (none, ⟨true, []⟩,
        S3Event.listObjects none :: objs.map fun k => S3Event.deleteObject k none) := by
  have hl : (faithfulConn pg).listObjectsV2Pages ⟨true, objs⟩ =
      ((none, pg objs), ⟨true, objs⟩) := by
    simp [faithfulConn]
  have hsw := sweepPages_faithful pg (pg objs) none
  rw [hpg] at hsw
  unfold deleteAllS3Objects
  rw [hl]
  simp [hsw, hpg, isAWSErr_none]

theorem bucketNotEmpty_not_noSuchBucket :
    isAWSErr (some bucketNotEmptyErr) "NoSuchBucket" "" = false := by decide

theorem bucketNotEmpty_is_bucketNotEmpty :
    isAWSErr (some bucketNotEmptyErr) "BucketNotEmpty" "" = true := by decide

/-- Claim C7: deleting a bucket holding the objects `objs` with
`force_destroy` set performs, after the initial `BucketNotEmpty` failure,
exactly one `DeleteObject` call per enumerated object (whatever the
pagination) followed by one successful `DeleteBucket` call, and succeeds;
and a `DeleteBucket` error other than `BucketNotEmpty` / `NoSuchBucket`
propagates as a failure diagnostic. -/
theorem claim_C7_force_destroy :
    (∀ (objs : List String) (pg : List String → List (List String)),
      (pg objs).flatten = objs → objs ≠ [] →
      resourceRabataS3BucketDelete (faithfulConn pg) true 2 ⟨true, objs⟩ =
        (none, ⟨false, []⟩,
          S3Event.deleteBucket (some bucketNotEmptyErr) ::
            S3Event.listObjects none ::
            ((objs.map fun k => S3Event.deleteObject k none) ++
              [S3Event.deleteBucket none])))
    ∧ (∀ (σ : Type) (conn : S3Conn σ) (forceDestroy : Bool) (fuel : Nat) (st : σ)
      (e : GoError),
      (conn.deleteBucket st).1 = some e →
      isAWSErr (some e) "NoSuchBucket" "" = false →
      isAWSErr (some e) "BucketNotEmpty" "" = false →
      (resourceRabataS3BucketDelete conn forceDestroy (fuel + 1) st).1 =
        some "error deleting S3 Bucket") := by
  constructor
  · intro objs pg hpg hne
    have hempty : objs.isEmpty = false := by
      cases objs with
      | nil => exact absurd rfl hne
      | cons a l => rfl
    have hdb : (faithfulConn pg).deleteBucket ⟨true, objs⟩ =
        (some bucketNotEmptyErr, ⟨true, objs⟩) := by
      simp [faithfulConn, hempty, hne]
    have hda := deleteAll_faithful pg objs hpg
    have hdb2 : (faithfulConn pg).deleteBucket ⟨true, []⟩ =
        (none, ⟨false, []⟩) := by
      simp [faithfulConn]
    unfold resourceRabataS3BucketDelete
    simp only [hdb, bucketNotEmpty_not_noSuchBucket, bucketNotEmpty_is_bucketNotEmpty,
      Bool.and_self, Bool.false_eq_true, if_false, if_true]
    simp only [hda]
    unfold resourceRabataS3BucketDelete
    simp only [hdb2]
    simp [isAWSErr_none]
  · intro σ conn forceDestroy fuel st e hdel hns hbne
    unfold resourceRabataS3BucketDelete
    simp [hdel, hns, hbne]

/-- Witness for C7: a two-object bucket delivered in one page is force
destroyed with two object deletions and a final successful bucket
delete; an `AccessDenied` bucket-delete failure propagates. -/
theorem claim_C7_witness :
    resourceRabataS3BucketDelete (faithfulConn fun l => [l]) true 2 ⟨true, ["a", "b"]⟩ =
      (none, ⟨false, []⟩,
        S3Event.deleteBucket (some bucketNotEmptyErr) ::
          S3Event.listObjects none ::
          ([S3Event.deleteObject "a" none, S3Event.deleteObject "b" none] ++
            [S3Event.deleteBucket none]))
    ∧ (resourceRabataS3BucketDelete
        (S3Conn.mk (fun st => (some (GoError.aws "AccessDenied" "" none), st))
          (fun _ st => (none, st)) (fun st => ((none, []), st)) : S3Conn Unit)
        false 1 ()).1 = some "error deleting S3 Bucket" := by
  constructor
  · exact claim_C7_force_destroy.1 ["a", "b"] (fun l => [l]) rfl (by decide)
  · exact claim_C7_force_destroy.2 Unit _ false 0 ()
      (GoError.aws "AccessDenied" "" none) rfl (by decide) (by decide)

/-- Keys of the `DeleteObject` calls in a trace, in order. -/
def objectDeleteKeys (evs : List S3Event) : List String :=
  evs.filterMap fun e =>
    match e with
    | .deleteObject k _ => some k
    | _ => none

/-- The not-found swallowing of `deleteS3ObjectVersion`: `NoSuchBucket` /
`NoSuchKey` failures become success. -/
def swallowNotFound (r : Option GoError) : Option GoError :=
  if isAWSErr r "NoSuchBucket" "" || isAWSErr r "NoSuchKey" "" then none
  else r

/-- Per-object results of the `DeleteObject` calls in a trace, after the
not-found swallowing. -/
def objectDeleteOutcomes (evs : List S3Event) : List (Option GoError) :=
  evs.filterMap fun e =>
    match e with
    | .deleteObject _ r => some (swallowNotFound r)
    | _ => none

/-- The `lastErr` accumulation of `deleteAllS3Objects`: the last non-nil
entry of `l`, defaulting to the seed `acc`. -/
def lastErrAfter (acc : Option GoError) (l : List (Option GoError)) : Option GoError :=
  l.foldl
    (fun a r =>
      match r with
      | none => a
      | some e => some e)
    acc

theorem deleteObjectVersion_ret (conn : S3Conn σ) (k v : String) (force : Bool)
    (st : σ) :
    (deleteS3ObjectVersion conn k v force st).1 =
      swallowNotFound (conn.deleteObject k st).1 := rfl

theorem lastErrAfter_cons (acc : Option GoError) (x : Option GoError)
    (l : List (Option GoError)) :
    lastErrAfter acc (x :: l) =
      lastErrAfter
        (match x with
         | none => acc
         | some e => some e) l := rfl

theorem objectDeleteKeys_cons_del (k : String) (r : Option GoError)
    (evs : List S3Event) :
    objectDeleteKeys (S3Event.deleteObject k r :: evs) = k :: objectDeleteKeys evs := rfl

theorem objectDeleteOutcomes_cons_del (k : String) (r : Option GoError)
    (evs : List S3Event) :
    objectDeleteOutcomes (S3Event.deleteObject k r :: evs) =
      swallowNotFound r :: objectDeleteOutcomes evs := rfl

theorem objectDeleteKeys_cons_list (r : Option GoError) (evs : List S3Event) :
    objectDeleteKeys (S3Event.listObjects r :: evs) = objectDeleteKeys evs := rfl

theorem objectDeleteOutcomes_cons_list (r : Option GoError) (evs : List S3Event) :
    objectDeleteOutcomes (S3Event.listObjects r :: evs) = objectDeleteOutcomes evs := rfl

theorem objectDeleteKeys_append (a b : List S3Event) :
    objectDeleteKeys (a ++ b) = objectDeleteKeys a ++ objectDeleteKeys b := by
  simp [objectDeleteKeys, List.filterMap_append]

theorem objectDeleteOutcomes_append (a b : List S3Event) :
    objectDeleteOutcomes (a ++ b) = objectDeleteOutcomes a ++ objectDeleteOutcomes b := by
  simp [objectDeleteOutcomes, List.filterMap_append]

theorem lastErrAfter_append (acc : Option GoError) (a b : List (Option GoError)) :
    lastErrAfter acc (a ++ b) = lastErrAfter (lastErrAfter acc a) b := by
  simp [lastErrAfter, List.foldl_append]

theorem deleteObjectVersion_events (conn : S3Conn σ) (k v : String) (force : Bool)
    (st : σ) :
    (deleteS3ObjectVersion conn k v force st).2.2 =
      [S3Event.deleteObject k (conn.deleteObject k st).1] := rfl

theorem sweepPage_trace (conn : S3Conn σ) (force : Bool) :
    ∀ (page : List String) (st : σ) (acc : Option GoError),
      objectDeleteKeys (sweepPage conn "" force page st acc).2.2 = page ∧
      (sweepPage conn "" force page st acc).2.1 =
        lastErrAfter acc (objectDeleteOutcomes (sweepPage conn "" force page st acc).2.2) := by
  intro page
  induction page with
  | nil => intro st acc; exact ⟨rfl, rfl⟩
  | cons k ks ih =>
    intro st acc
    simp only [sweepPage, key_filter_empty, Bool.false_eq_true, if_false]
    obtain ⟨ih1, ih2⟩ := ih (deleteS3ObjectVersion conn k "" force st).2.1
      (match (deleteS3ObjectVersion conn k "" force st).1 with
       | none => acc
       | some e => some e)
    refine ⟨?_, ?_⟩
    · rw [deleteObjectVersion_events]
      rw [List.singleton_append, objectDeleteKeys_cons_del, ih1]
    · rw [ih2, deleteObjectVersion_events, List.singleton_append,
        objectDeleteOutcomes_cons_del, lastErrAfter_cons, deleteObjectVersion_ret]

theorem sweepPages_trace (conn : S3Conn σ) (force : Bool) :
    ∀ (pages : List (List String)) (st : σ) (acc : Option GoError),
      objectDeleteKeys (sweepPages conn "" force pages st acc).2.2 = pages.flatten ∧
      (sweepPages conn "" force pages st acc).2.1 =
        lastErrAfter acc (objectDeleteOutcomes (sweepPages conn "" force pages st acc).2.2) := by
  intro pages
  induction pages with
  | nil => intro st acc; exact ⟨rfl, rfl⟩
  | cons p ps ih =>
    intro st acc
    simp only [sweepPages]
    obtain ⟨hp1, hp2⟩ := sweepPage_trace conn force p st acc
    obtain ⟨ih1, ih2⟩ := ih (sweepPage conn "" force p st acc).1
      (sweepPage conn "" force p st acc).2.1
    refine ⟨?_, ?_⟩
    · rw [objectDeleteKeys_append, hp1, ih1, List.flatten_cons]
    · rw [ih2, hp2, objectDeleteOutcomes_append, lastErrAfter_append]

/-- Claim C9: `deleteAllS3Objects` is not fail-fast per object: whenever
the paginated listing succeeds, every enumerated object receives exactly
one deletion attempt, in listing order, regardless of per-object
failures; only after the full walk does the function return, and (with
`ignoreObjectErrors` unset) its error wraps the last per-object failure
that the not-found swallowing did not absorb — nil when there was
none. -/
theorem claim_C9_sweep_not_fail_fast :
    ∀ (σ : Type) (conn : S3Conn σ) (st st1 : σ) (pages : List (List String)),
      conn.listObjectsV2Pages st = ((none, pages), st1) →
      objectDeleteKeys (deleteAllS3Objects conn "" false false st).2.2 = pages.flatten ∧
      (deleteAllS3Objects conn "" false false st).1 =
        (match lastErrAfter none
            (objectDeleteOutcomes (deleteAllS3Objects conn "" false false st).2.2) with
         | none => none
         | some e =>
             some (GoError.wrapped
               "error deleting at least one object version, last error" e)) := by
  intro σ conn st st1 pages hlist
  obtain ⟨hs1, hs2⟩ := sweepPages_trace conn false pages st1 none
  unfold deleteAllS3Objects
  rw [hlist]
  simp only [isAWSErr_none, Bool.false_eq_true, if_false, Option.isSome_none,
    Bool.not_false, Bool.and_true]
  rcases h : (sweepPages conn "" false pages st1 none).2.1 with _ | e
  · rw [h] at hs2
    simp only [h, Option.isSome_none, Bool.false_eq_true, if_false]
    refine ⟨by rw [objectDeleteKeys_cons_list]; exact hs1, ?_⟩
    rw [objectDeleteOutcomes_cons_list, ← hs2]
  · rw [h] at hs2
    simp only [h, Option.isSome_some, if_true]
    refine ⟨by rw [objectDeleteKeys_cons_list]; exact hs1, ?_⟩
    rw [objectDeleteOutcomes_cons_list, ← hs2]
    rfl

/-- An endpoint whose bucket lists three objects across two pages and
fails to delete the middle one with `AccessDenied`. -/
def c9Conn : S3Conn Unit where
  deleteBucket _ := (none, ())
  deleteObject k st :=
    (if k == "bad" then some (GoError.aws "AccessDenied" "" none) else none, st)
  listObjectsV2Pages st := ((none, [["a", "bad"], ["c"]]), st)

/-- Witness for C9: the failing middle object does not stop the sweep —
all three keys are attempted — and the final error wraps the failure. -/
theorem claim_C9_witness :
    objectDeleteKeys (deleteAllS3Objects c9Conn "" false false ()).2.2 =
      ["a", "bad", "c"]
    ∧ (deleteAllS3Objects c9Conn "" false false ()).1 =
        some (GoError.wrapped "error deleting at least one object version, last error"
          (GoError.aws "AccessDenied" "" none)) := by
  obtain ⟨h1, h2⟩ := claim_C9_sweep_not_fail_fast Unit c9Conn () ()
    [["a", "bad"], ["c"]] rfl
  exact ⟨h1, by rw [h2]; rfl⟩

theorem asAWS_some_not_timeout :
    ∀ e : GoError, (GoError.asAWS e).isSome = true → e.isTimeoutNoLast = false := by
  intro e
  induction e with
  | aws c m s => intro _; rfl
  | timeoutNoLast => intro h; simp [GoError.asAWS] at h
  | wrapped ctx inner ih => intro h; exact ih h
  | other m => intro _; rfl

theorem isAWSErr_asAWS_isSome (e : GoError) (c m : String) :
    isAWSErr (some e) c m = true → (GoError.asAWS e).isSome = true := by
  simp only [isAWSErr]
  rcases h : e.asAWS with _ | v
  · simp
  · simp

theorem retryContextGo_stop_success (classify : α → RetryDecision) (x : α)
    (hx : classify x = .success) :
    ∀ (pre rest : List α) (acc : Option GoError),
      (∀ y ∈ pre, ∃ e, classify y = .retryable e) →
      retryContextGo classify (pre ++ x :: rest) acc = (none, pre.length + 1) := by
  intro pre
  induction pre with
  | nil => intro rest acc _; simp [retryContextGo, hx]
  | cons y pre ih =>
    intro rest acc hpre
    obtain ⟨e, he⟩ := hpre y (List.mem_cons_self _ _)
    simp only [List.cons_append, retryContextGo, he, List.append_eq]
    rw [ih rest (some e) (fun z hz => hpre z (List.mem_cons_of_mem _ hz))]
    simp [List.length_cons]

theorem retryContextGo_stop_nonretry (classify : α → RetryDecision) (x : α)
    (e0 : GoError) (hx : classify x = .nonRetryable e0) :
    ∀ (pre rest : List α) (acc : Option GoError),
      (∀ y ∈ pre, ∃ e, classify y = .retryable e) →
      retryContextGo classify (pre ++ x :: rest) acc = (some e0, pre.length + 1) := by
  intro pre
  induction pre with
  | nil => intro rest acc _; simp [retryContextGo, hx]
  | cons y pre ih =>
    intro rest acc hpre
    obtain ⟨e, he⟩ := hpre y (List.mem_cons_self _ _)
    simp only [List.cons_append, retryContextGo, he, List.append_eq]
    rw [ih rest (some e) (fun z hz => hpre z (List.mem_cons_of_mem _ hz))]
    simp [List.length_cons]

theorem retryContextGo_exhaust (classify : α → RetryDecision) (last : α)
    (w : GoError) (hlast : classify last = .retryable w) :
    ∀ (pre : List α) (acc : Option GoError),
      (∀ y ∈ pre, ∃ e, classify y = .retryable e) →
      retryContextGo classify (pre ++ [last]) acc = (some w, pre.length + 1) := by
  intro pre
  induction pre with
  | nil => intro acc _; simp [retryContextGo, hlast]
  | cons y pre ih =>
    intro acc hpre
    obtain ⟨e, he⟩ := hpre y (List.mem_cons_self _ _)
    simp only [List.cons_append, retryContextGo, he, List.append_eq]
    rw [ih (some e) (fun z hz => hpre z (List.mem_cons_of_mem _ hz))]
    simp [List.length_cons]

theorem take_len_succ_append :
    ∀ (pre : List α) (x : α) (rest : List α),
      (pre ++ x :: rest).take (pre.length + 1) = pre ++ [x] := by
  intro pre
  induction pre with
  | nil => intro x rest; rfl
  | cons a l ih => intro x rest; simp [List.take_succ_cons, ih]

theorem createClassify_retryable_of_aborted (y : Option GoError)
    (h : isAWSErr y "OperationAborted" "" = true) :
    ∃ w, createClassify y = RetryDecision.retryable w := by
  rcases y with _ | ey
  · simp [isAWSErr] at h
  · exact ⟨GoError.wrapped "error creating S3 bucket, retrying" ey,
      by simp [createClassify, h]⟩

/-- Claim C6: the bucket create retry loop retries the `CreateBucket`
call only while it fails with code `OperationAborted`, inside the fixed
5-minute budget: a success or any other error ends the loop at once with
no further call; when the budget is exhausted by `OperationAborted`
failures the last of them is surfaced, again with no further call; only
when the loop ends with a `retry.TimeoutError` (no call completed inside
the budget) is exactly one additional unretried `CreateBucket` attempt
made before the error is surfaced. -/
theorem claim_C6_create_retry_behavior :
    (∀ (bucket : String) (beh : CreateBucketBehavior)
      (pre rest : List (Option GoError)) (e : GoError),
      validateS3BucketName bucket = none →
      beh.attempts = pre ++ some e :: rest →
      (∀ x ∈ pre, isAWSErr x "OperationAborted" "" = true) →
      isAWSErr (some e) "OperationAborted" "" = false →
      e.isTimeoutNoLast = false →
      resourceRabataS3BucketCreate bucket beh =
        (some "error creating S3 bucket", (pre ++ [some e]).map BucketEvent.createBucket))
    ∧ (∀ (bucket : String) (beh : CreateBucketBehavior)
      (pre rest : List (Option GoError)),
      validateS3BucketName bucket = none →
      beh.attempts = pre ++ none :: rest →
      (∀ x ∈ pre, isAWSErr x "OperationAborted" "" = true) →
      resourceRabataS3BucketCreate bucket beh =
        (none, (pre ++ [none]).map BucketEvent.createBucket))
    ∧ (∀ (bucket : String) (beh : CreateBucketBehavior)
      (pre : List (Option GoError)) (e : GoError),
      validateS3BucketName bucket = none →
      beh.attempts = pre ++ [some e] →
      (∀ x ∈ beh.attempts, isAWSErr x "OperationAborted" "" = true) →
      resourceRabataS3BucketCreate bucket beh =
        (some "error creating S3 bucket", beh.attempts.map BucketEvent.createBucket))
    ∧ (∀ (bucket : String) (extra : Option GoError),
      validateS3BucketName bucket = none →
      resourceRabataS3BucketCreate bucket ⟨[], extra⟩ =
        ((match extra with
          | some _ => some "error creating S3 bucket"
          | none => none), [BucketEvent.createBucket extra]))
    ∧ s3BucketCreateRetryMinutes = 5 := by
  refine ⟨?_, ?_, ?_, ?_, rfl⟩
  · intro bucket beh pre rest e hv hatt hpre hne htm
    have hval : (validateS3BucketName bucket).isSome = false := by simp [hv]
    have hcl : createClassify (some e) = .nonRetryable e := by
      simp [createClassify, hne]
    have hrun := retryContextGo_stop_nonretry createClassify (some e) e hcl pre rest
      none (fun y hy => createClassify_retryable_of_aborted y (hpre y hy))
    unfold resourceRabataS3BucketCreate retryContextRun
    simp only [hval, Bool.false_eq_true, if_false, hatt, hrun,
      take_len_succ_append, isResourceTimeoutError, GoError.isTimeoutNoLast, htm]
  · intro bucket beh pre rest hv hatt hpre
    have hval : (validateS3BucketName bucket).isSome = false := by simp [hv]
    have hcl : createClassify none = .success := rfl
    have hrun := retryContextGo_stop_success createClassify none hcl pre rest
      none (fun y hy => createClassify_retryable_of_aborted y (hpre y hy))
    unfold resourceRabataS3BucketCreate retryContextRun
    simp only [hval, Bool.false_eq_true, if_false, hatt, hrun,
      take_len_succ_append, isResourceTimeoutError]
  · intro bucket beh pre e hv hatt hall
    have hval : (validateS3BucketName bucket).isSome = false := by simp [hv]
    have hmem : isAWSErr (some e) "OperationAborted" "" = true := by
      apply hall
      rw [hatt]
      exact List.mem_append_right _ (List.mem_singleton.mpr rfl)
    have hcl : createClassify (some e) =
        .retryable (.wrapped "error creating S3 bucket, retrying" e) := by
      simp [createClassify, hmem]
    have hrun := retryContextGo_exhaust createClassify (some e) _ hcl pre
      none (fun y hy => createClassify_retryable_of_aborted y
        (hall y (by rw [hatt]; exact List.mem_append_left _ hy)))
    have htm : e.isTimeoutNoLast = false :=
      asAWS_some_not_timeout e (isAWSErr_asAWS_isSome e _ _ hmem)
    have htake : (pre ++ [some e]).take (pre.length + 1) = pre ++ [some e] := by
      have := take_len_succ_append pre (some e) ([] : List (Option GoError))
      simpa using this
    unfold resourceRabataS3BucketCreate retryContextRun
    simp only [hval, Bool.false_eq_true, if_false, hatt, hrun, htake,
      isResourceTimeoutError, GoError.isTimeoutNoLast, htm]
  · intro bucket extra hv
    have hval : (validateS3BucketName bucket).isSome = false := by simp [hv]
    unfold resourceRabataS3BucketCreate retryContextRun
    simp only [hval, Bool.false_eq_true, if_false]
    rcases extra with _ | e <;> rfl

/-- The `OperationAborted` error used in the C6 witness. -/
def opAbortedErr : GoError := .aws "OperationAborted" "" none

/-- Witness for C6 at concrete inputs: one `OperationAborted` failure is
retried and the following `AccessDenied` stops the loop; an empty
completed-attempt list (timeout) triggers exactly one extra call. -/
theorem claim_C6_witness :
    resourceRabataS3BucketCreate "my-bucket"
        ⟨[some opAbortedErr, some (GoError.aws "AccessDenied" "" none)], none⟩ =
      (some "error creating S3 bucket",
        [BucketEvent.createBucket (some opAbortedErr),
         BucketEvent.createBucket (some (GoError.aws "AccessDenied" "" none))])
    ∧ resourceRabataS3BucketCreate "my-bucket" ⟨[], none⟩ =
        (none, [BucketEvent.createBucket none]) := by
  constructor
  · have h := claim_C6_create_retry_behavior.1 "my-bucket"
      ⟨[some opAbortedErr, some (GoError.aws "AccessDenied" "" none)], none⟩
      [some opAbortedErr] [] (GoError.aws "AccessDenied" "" none)
      (by decide) rfl
      (by
        intro x hx
        simp only [List.mem_singleton] at hx
        subst hx
        decide)
      (by decide) rfl
    exact h
  · exact claim_C6_create_retry_behavior.2.2.2.1 "my-bucket" none (by decide)

/-- `aws.StringValue`: dereference a string pointer, "" when nil. -/
def stringValue : Option String → String
  | none => ""
  | some s => s

/-- One `s3.Grant` of a `GetBucketAcl` response, grantee fields inlined
(`none` models a nil pointer). -/
structure S3Grant where
  granteeType : Option String
  granteeId : Option String
  granteeUri : Option String
  permission : Option String
deriving Repr, DecidableEq

/-- An `s3.GetBucketAclOutput`: the owner id and the grant list. -/
structure GetBucketAclOutput where
  ownerId : Option String
  grants : List S3Grant
deriving Repr, DecidableEq

/-- One entry of the flattened grant set built by `flattenGrants`: the
per-grantee map (the "id"/"uri" keys exist only when the SDK pointer was
non-nil) with its merged permission set (a string set modelled as a
dedup-append list). -/
structure FlatGrant where
  gtype : String
  gid : Option String
  guri : Option String
  permissions : List String
deriving Repr, DecidableEq

/-- The `getGrant` matching of `flattenGrants`: same type, id and uri
keys, and a non-empty permission set. -/
def flatMatches (g : FlatGrant) (t : String) (i u : Option String) : Bool :=
  g.gtype == t && g.gid == i && g.guri == u && !g.permissions.isEmpty

/-- `schema.Set.Add` on a string set. -/
def addPermission (p : String) (l : List String) : List String :=
  if l.contains p then l else l ++ [p]

/-- Adds permission `p` to the first matching accumulated grant, if
any. -/
def updateFirstMatch (t : String) (i u : Option String) (p : String) :
    List FlatGrant → Option (List FlatGrant)
  | [] => none
  | g :: rest =>
    if flatMatches g t i u then
      some ({ g with permissions := addPermission p g.permissions } :: rest)
    else
      (updateFirstMatch t i u p rest).map (g :: ·)

/-- The loop body of `flattenGrants`: merge one SDK grant into the
accumulated list. -/
def insertGrant (acc : List FlatGrant) (g : S3Grant) : List FlatGrant :=
  let t := stringValue g.granteeType
  let p := stringValue g.permission
  match updateFirstMatch t g.granteeId g.granteeUri p acc with
  | some acc2 => acc2
  | none => acc ++ [⟨t, g.granteeId, g.granteeUri, [p]⟩]

/-- `flattenGrants` from rabata/resource_rabata_s3_bucket.go: an ACL
consisting of a single `FULL_CONTROL` grant whose grantee id equals the
owner id (under `aws.StringValue`) is the default private ACL and
flattens to the empty grant set; otherwise grants are merged by
(type, id, uri), accumulating permissions. -/
def flattenGrants (ap : GetBucketAclOutput) : List FlatGrant :=
  match ap.grants with
  | [g] =>
    if stringValue g.granteeId == stringValue ap.ownerId &&
        stringValue g.permission == "FULL_CONTROL" then []
    else ap.grants.foldl insertGrant []
  | _ => ap.grants.foldl insertGrant []

/-- Network calls issued by the bucket Read handler. -/
inductive ReadEvent where
  | headBucket (result : Option GoError)
  | getBucketAcl
  | getBucketRegion
deriving Repr, DecidableEq

/-- The bucket-resource ResourceData fields the Read handler touches.
GetOk semantics: a field holding its zero value ("" / none) reads as
unset. -/
structure BucketRD where
  rid : String
  bucket : Option String
  acl : String
  grant : Option (List FlatGrant)
  region : Option String
  bucketDomainName : Option String
  bucketRegionalDomainName : Option String
  arn : Option String
  isNew : Bool

/-- Environment of one bucket Read: the outcomes of the `HeadBucket`
retry attempts that complete inside the 2-minute deadline, of the
post-timeout head call, of `GetBucketAcl` (final outcome after its
`NoSuchBucket` retry wrapper) and of `GetBucketRegion` (final outcome
after its `NotFound` retry wrapper). -/
structure BucketReadEnv where
  headAttempts : List (Option GoError)
  headExtra : Option GoError
  aclResult : GoError ⊕ GetBucketAclOutput
  regionResult : GoError ⊕ String

/-- The closure passed to `retry.RetryContext` inside bucket Read: for a
new resource a 404-status request failure or a `NoSuchBucket` code is
retryable; any other error is non-retryable; nil is success. -/
def headClassify (isNew : Bool) (res : Option GoError) : RetryDecision :=
  match res with
  | none => .success
  | some e =>
    if isNew && isAWSErrRequestFailureStatusCode (some e) 404 then .retryable e
    else if isNew && isAWSErr (some e) "NoSuchBucket" "" then .retryable e
    else .nonRetryable e

/-- The literal `s3BucketCreationTimeout = 2*time.Minute`. -/
def s3BucketCreationTimeoutMinutes : Nat := 2

/-- The shared tail of bucket Read: discover the region, then set
`region`, `bucket_regional_domain_name` (set from the bucket domain
name, as the source does) and `arn`. -/
def readRegionStep (env : BucketReadEnv) (d : BucketRD)
    (events : List ReadEvent) (bdn : String) :
    Option String × BucketRD × List ReadEvent :=
  let events := events ++ [ReadEvent.getBucketRegion]
  match env.regionResult with
  | .inl _ => (some "error getting S3 Bucket location", d, events)
  | .inr r =>
    let d := { d with region := some r }
    let d := { d with bucketRegionalDomainName := some bdn }
    let d := { d with arn := some ("arn:aws:s3:::" ++ d.rid) }
    (none, d, events)

/-- `resourceRabataS3BucketRead` from
rabata/resource_rabata_s3_bucket.go: retried `HeadBucket` existence
check; a 404-status or `NoSuchBucket` failure clears the resource id and
succeeds; any other failure is a diagnostic; otherwise the computed
fields are filled, with `grant` reset to nil when a non-private canned
`acl` is configured and overwritten from `GetBucketAcl` (flattened)
otherwise. -/
def resourceRabataS3BucketRead (dnsSuffix : String) (env : BucketReadEnv)
    (d : BucketRD) : Option String × BucketRD × List ReadEvent :=
  let run := retryContextRun (headClassify d.isNew) env.headAttempts
  let events := (env.headAttempts.take run.2).map ReadEvent.headBucket
  let post :=
    if isResourceTimeoutError run.1 then
      (env.headExtra, events ++ [ReadEvent.headBucket env.headExtra])
    else (run.1, events)
  if isAWSErrRequestFailureStatusCode post.1 404 || isAWSErr post.1 "NoSuchBucket" "" then
    (none, { d with rid := "" }, post.2)
  else
    match post.1 with
    | some _ => (some "error reading S3 Bucket", d, post.2)
    | none =>
      let d :=
        match d.bucket with
        | none => { d with bucket := some d.rid }
        | some _ => d
      let bdn := stringValue d.bucket ++ ".s3." ++ dnsSuffix
      let d := { d with bucketDomainName := some bdn }
      if d.acl != "" && d.acl != "private" then
        let d := { d with grant := none }
        readRegionStep env d post.2 bdn
      else
        let events := post.2 ++ [ReadEvent.getBucketAcl]
        match env.aclResult with
        | .inl _ => (some "error getting S3 Bucket ACL", d, events)
        | .inr out =>
          let d := { d with grant := some (flattenGrants out) }
          readRegionStep env d events bdn

/-- `strings.Trim(s, "\x22")`: strip all leading and trailing double
quotes. -/
def trimQuotes (s : String) : String :=
  let l := s.data.dropWhile (fun c => c == '"')
  String.mk ((l.reverse.dropWhile (fun c => c == '"')).reverse)

/-- An `s3.HeadObjectOutput` (`none` models a nil pointer field). -/
structure HeadObjectOutput where
  cacheControl : Option String
  contentDisposition : Option String
  contentEncoding : Option String
  contentLanguage : Option String
  contentType : Option String
  metadata : List (String × String)
  versionId : Option String
  etag : Option String
  storageClass : Option String
deriving Repr, DecidableEq

/-- The bucket-object ResourceData fields the handlers touch.  GetOk
semantics: a field holding its zero value reads as unset. -/
structure ObjectRD where
  rid : String
  bucket : String
  key : String
  acl : String
  cacheControl : String
  contentDisposition : String
  contentEncoding : String
  contentLanguage : String
  contentType : String
  metadata : List (String × String)
  source : String
  content : String
  contentBase64 : String
  storageClass : String
  etag : String
  versionId : String
  forceDestroy : Bool
deriving Repr, DecidableEq

/-- The request body handed to `PutObject`, tagged by its origin:
`noBody` is the nil `io.ReadSeeker` left when no content source is
configured. -/
inductive ObjBody where
  | noBody
  | fromFile (path : String)
  | fromContent (s : String)
  | fromBase64 (bytes : List Nat)
deriving Repr, DecidableEq

/-- The `s3.PutObjectInput` fields the handler populates (optional
fields set only when the attribute reads as set). -/
structure PutInputModel where
  bucket : String
  key : String
  acl : String
  body : ObjBody
  storageClass : Option String
  cacheControl : Option String
  contentType : Option String
  metadata : Option (List (String × String))
  contentEncoding : Option String
  contentLanguage : Option String
  contentDisposition : Option String
deriving Repr, DecidableEq

/-- Network calls issued by the bucket-object handlers. -/
inductive ObjEvent where
  | putObject (input : PutInputModel)
  | putObjectAcl (acl : String)
  | headObject
deriving Repr, DecidableEq

/-- Value of one character of the standard base64 alphabet. -/
def base64Val (c : Char) : Option Nat :=
  if 65 ≤ c.toNat ∧ c.toNat ≤ 90 then some (c.toNat - 65)
  else if 97 ≤ c.toNat ∧ c.toNat ≤ 122 then some (c.toNat - 97 + 26)
  else if 48 ≤ c.toNat ∧ c.toNat ≤ 57 then some (c.toNat - 48 + 52)
  else if c = '+' then some 62
  else if c = '/' then some 63
  else none

/-- Decode whole 4-character base64 quanta, with padding allowed only in
the final quantum. -/
def base64Quanta : List Char → Option (List Nat)
  | [] => some []
  | a :: b :: c :: d :: rest =>
    (match base64Val a, base64Val b with
     | some va, some vb =>
       if c = '=' then
         if d = '=' ∧ rest = [] then some [va * 4 + vb / 16]
         else none
       else
         (match base64Val c with
          | some vc =>
            if d = '=' then
              if rest = [] then some [va * 4 + vb / 16, (vb % 16) * 16 + vc / 4]
              else none
            else
              (match base64Val d with
               | some vd =>
                 (base64Quanta rest).map fun tail =>
                   (va * 4 + vb / 16) :: ((vb % 16) * 16 + vc / 4) ::
                     ((vc % 4) * 64 + vd) :: tail
               | none => none)
          | none => none)
     | _, _ => none)
  | _ => none

/-- `base64.StdEncoding.DecodeString` (Go encoding/base64): standard
alphabet with mandatory padding; CR and LF are ignored; any character
outside the alphabet, a misplaced pad or a truncated final quantum is an
error (non-canonical trailing bits are accepted, as in Go's non-strict
mode). -/
def decodeBase64 (s : String) : Option (List Nat) :=
  base64Quanta (s.data.filter fun c => !(c == '\r' || c == '\n'))

/-- Environment of one bucket-object Put / Update: homedir expansion and
file opening for the `source` path, and the outcomes of `PutObject`,
`PutObjectAcl` and the trailing `HeadObject` read. -/
structure PutEnv where
  expandHome : String → GoError ⊕ String
  openFile : String → GoError ⊕ Unit
  putResult : Option GoError
  putAclResult : Option GoError
  headResult : GoError ⊕ HeadObjectOutput

/-- `resourceRabataS3BucketObjectRead` from the bucket-object source
file: a `HeadObject` request failure with HTTP status 404 clears the
resource id and succeeds; any other failure is a diagnostic; on success
the computed fields are overwritten from the response (metadata keys
lowercased, etag unquoted, storage class defaulting to STANDARD). -/
def resourceRabataS3BucketObjectRead (headResult : GoError ⊕ HeadObjectOutput)
    (d : ObjectRD) : Option String × ObjectRD × List ObjEvent :=
  match headResult with
  | .inl e =>
    if isAWSErrRequestFailureStatusCode (some e) 404 then
      (none, { d with rid := "" }, [ObjEvent.headObject])
    else (some "error reading S3 object", d, [ObjEvent.headObject])
  | .inr resp =>
    let d := { d with
      cacheControl := stringValue resp.cacheControl
      contentDisposition := stringValue resp.contentDisposition
      contentEncoding := stringValue resp.contentEncoding
      contentLanguage := stringValue resp.contentLanguage
      contentType := stringValue resp.contentType
      metadata := resp.metadata.map fun p => (p.1.toLower, p.2)
      versionId := stringValue resp.versionId
      etag := trimQuotes (stringValue resp.etag)
      storageClass :=
        match resp.storageClass with
        | some sc => sc
        | none => "STANDARD" }
    (none, d, [ObjEvent.headObject])

/-- `resourceRabataS3BucketObjectPut` from the bucket-object source
file: the body comes from the expanded `source` file if `source` is
set, else from the literal `content`, else from the decoded
`content_base64`, else it stays nil; the `PutObject` request is then
issued (body errors short-circuit before any call), the id is set to the
key and the handler delegates to Read.  The body choice is split out as
`selectObjectBody`. -/
def selectObjectBody (env : PutEnv) (d : ObjectRD) : ObjBody ⊕ String :=
  if d.source != "" then
    match env.expandHome d.source with
    | .inl _ => .inr "Error expanding homedir in source"
    | .inr path =>
      match env.openFile path with
      | .inl _ => .inr "Error opening S3 bucket object source"
      | .inr _ => .inl (ObjBody.fromFile path)
  else if d.content != "" then .inl (ObjBody.fromContent d.content)
  else if d.contentBase64 != "" then
    match decodeBase64 d.contentBase64 with
    | none => .inr "error decoding content_base64"
    | some bs => .inl (ObjBody.fromBase64 bs)
  else .inl ObjBody.noBody

/-- The body of `resourceRabataS3BucketObjectPut` after body selection. -/
def resourceRabataS3BucketObjectPut (env : PutEnv) (d : ObjectRD) :
    Option String × ObjectRD × List ObjEvent :=
  match selectObjectBody env d with
  | .inr msg => (some msg, d, [])
  | .inl body =>
    let input : PutInputModel :=
      { bucket := d.bucket
        key := d.key
        acl := d.acl
        body := body
        storageClass := if d.storageClass != "" then some d.storageClass else none
        cacheControl := if d.cacheControl != "" then some d.cacheControl else none
        contentType := if d.contentType != "" then some d.contentType else none
        metadata := if !d.metadata.isEmpty then some d.metadata else none
        contentEncoding := if d.contentEncoding != "" then some d.contentEncoding else none
        contentLanguage := if d.contentLanguage != "" then some d.contentLanguage else none
        contentDisposition :=
          if d.contentDisposition != "" then some d.contentDisposition else none }
    match env.putResult with
    | some _ => (some "Error putting object in S3 bucket", d, [ObjEvent.putObject input])
    | none =>
      let d := { d with rid := d.key }
      let r := resourceRabataS3BucketObjectRead env.headResult d
      (r.1, r.2.1, ObjEvent.putObject input :: r.2.2)

/-- The content-affecting attributes whose change forces a full
re-upload in object Update. -/
def objectContentAttrs : List String :=
  ["cache_control", "content_base64", "content_disposition", "content_encoding",
   "content_language", "content_type", "content", "etag", "metadata", "source",
   "storage_class"]

/-- `resourceRabataS3BucketObjectUpdate` from the bucket-object source
file: a change to any content-affecting attribute delegates to Put (the
full re-upload) and returns; otherwise an `acl` change issues a single
`PutObjectAcl`; either way the handler ends by delegating to Read. -/
def resourceRabataS3BucketObjectUpdate (env : PutEnv) (hasChange : String → Bool)
    (d : ObjectRD) : Option String × ObjectRD × List ObjEvent :=
  if objectContentAttrs.any hasChange then
    resourceRabataS3BucketObjectPut env d
  else if hasChange "acl" then
    match env.putAclResult with
    | some _ => (some "error putting S3 object ACL", d, [ObjEvent.putObjectAcl d.acl])
    | none =>
      let r := resourceRabataS3BucketObjectRead env.headResult d
      (r.1, r.2.1, ObjEvent.putObjectAcl d.acl :: r.2.2)
  else
    resourceRabataS3BucketObjectRead env.headResult d

theorem notFound_check_not_timeout :
    ∀ e : GoError,
      (isAWSErrRequestFailureStatusCode (some e) 404 ||
        isAWSErr (some e) "NoSuchBucket" "") = true →
      e.isTimeoutNoLast = false := by
  intro e
  induction e with
  | aws c m s => intro _; rfl
  | timeoutNoLast =>
    intro h
    simp [isAWSErrRequestFailureStatusCode, isAWSErr, GoError.asAWS,
      GoError.asReqFailure] at h
  | wrapped ctx inner ih => intro h; exact ih h
  | other m => intro _; rfl

/-- A plain-read ResourceData for the C3 scenarios. -/
def c3Obj : ObjectRD :=
  ⟨"obj-id", "b", "k", "private", "", "", "", "", "", [], "", "", "", "", "", "", false⟩

/-- Counterexample to C3 as stated: the object Read existence check
fails with error code `NoSuchBucket` (a plain AWS error, not a
404-status request failure), yet the handler surfaces an error and
leaves the id `obj-id` in place instead of clearing it. -/
theorem claim_C3_counterexample :
    isAWSErr (some (GoError.aws "NoSuchBucket" "" none)) "NoSuchBucket" "" = true
    ∧ (resourceRabataS3BucketObjectRead
        (Sum.inl (GoError.aws "NoSuchBucket" "" none)) c3Obj).1 =
      some "error reading S3 object"
    ∧ (resourceRabataS3BucketObjectRead
        (Sum.inl (GoError.aws "NoSuchBucket" "" none)) c3Obj).2.1.rid = "obj-id" := by
  refine ⟨by decide, rfl, rfl⟩

/-- Claim C3 (amended): bucket Read clears the id and returns no error
exactly when the final existence-check failure carries HTTP status 404
or code `NoSuchBucket`; object Read clears exactly on a request failure
with HTTP status 404 — a `NoSuchBucket`-coded error that is not a
404-status request failure is surfaced as an error there; any other
existence-check failure yields an error diagnostic and leaves the id
unchanged. -/
theorem claim_C3_read_clears_id_on_absence :
    (∀ (sfx : String) (env : BucketReadEnv) (d : BucketRD) (e : GoError),
      d.isNew = false →
      env.headAttempts = [some e] →
      ((isAWSErrRequestFailureStatusCode (some e) 404 ||
          isAWSErr (some e) "NoSuchBucket" "") = true →
        resourceRabataS3BucketRead sfx env d =
          (none, { d with rid := "" }, [ReadEvent.headBucket (some e)])) ∧
      ((isAWSErrRequestFailureStatusCode (some e) 404 ||
          isAWSErr (some e) "NoSuchBucket" "") = false →
        e.isTimeoutNoLast = false →
        resourceRabataS3BucketRead sfx env d =
          (some "error reading S3 Bucket", d, [ReadEvent.headBucket (some e)])))
    ∧ (∀ (d : ObjectRD) (e : GoError),
      (isAWSErrRequestFailureStatusCode (some e) 404 = true →
        resourceRabataS3BucketObjectRead (Sum.inl e) d =
          (none, { d with rid := "" }, [ObjEvent.headObject])) ∧
      (isAWSErrRequestFailureStatusCode (some e) 404 = false →
        resourceRabataS3BucketObjectRead (Sum.inl e) d =
          (some "error reading S3 object", d, [ObjEvent.headObject]))) := by
  constructor
  · intro sfx env d e hnew hatt
    have hcl : headClassify d.isNew (some e) = .nonRetryable e := by
      simp [headClassify, hnew]
    have hrun : retryContextRun (headClassify d.isNew) [some e] = (some e, 1) := by
      simp [retryContextRun, retryContextGo, hcl]
    constructor
    · intro hcond
      have htm : e.isTimeoutNoLast = false := notFound_check_not_timeout e hcond
      unfold resourceRabataS3BucketRead
      simp only [hatt, hrun, isResourceTimeoutError, GoError.isTimeoutNoLast, htm,
        Bool.false_eq_true, if_false, hcond, List.take, List.map, if_true]
    · intro hcond htm
      unfold resourceRabataS3BucketRead
      simp only [hatt, hrun, isResourceTimeoutError, GoError.isTimeoutNoLast, htm,
        Bool.false_eq_true, if_false, hcond, List.take, List.map]
  · intro d e
    constructor
    · intro h
      unfold resourceRabataS3BucketObjectRead
      simp only [h, if_true]
    · intro h
      unfold resourceRabataS3BucketObjectRead
      simp only [h, Bool.false_eq_true, if_false]

/-- A plain-read bucket ResourceData for the C3 witness. -/
def c3Bucket : BucketRD :=
  ⟨"bkt", some "bkt", "private", none, none, none, none, none, false⟩

/-- Witness for C3 (amended): a `NoSuchBucket` head failure clears the
bucket id without error; a 404-status head failure clears the object id
without error. -/
theorem claim_C3_witness :
    resourceRabataS3BucketRead "sfx"
        ⟨[some noSuchBucketErr], none, Sum.inr ⟨none, []⟩, Sum.inr "r"⟩ c3Bucket =
      (none, { c3Bucket with rid := "" }, [ReadEvent.headBucket (some noSuchBucketErr)])
    ∧ resourceRabataS3BucketObjectRead
        (Sum.inl (GoError.aws "" "" (some 404))) c3Obj =
      (none, { c3Obj with rid := "" }, [ObjEvent.headObject]) := by
  constructor
  · exact (claim_C3_read_clears_id_on_absence.1 "sfx"
      ⟨[some noSuchBucketErr], none, Sum.inr ⟨none, []⟩, Sum.inr "r"⟩ c3Bucket
      noSuchBucketErr rfl rfl).1 (by decide)
  · exact (claim_C3_read_clears_id_on_absence.2 c3Obj
      (GoError.aws "" "" (some 404))).1 (by decide)

/-- Claim C10: bucket Read preserves acl/grant exclusivity: with a
successful existence check, a configured canned `acl` that is set and
differs from `private` makes Read reset `grant` to nil without issuing
`GetBucketAcl`; otherwise Read issues `GetBucketAcl` and overwrites
`grant` with the flattened response, where a remote ACL consisting of a
single `FULL_CONTROL` grant whose grantee id equals the owner id
flattens to the empty grant set. -/
theorem claim_C10_acl_grant_exclusivity :
    (∀ (sfx : String) (env : BucketReadEnv) (d : BucketRD),
      env.headAttempts = [none] →
      (d.acl != "" && d.acl != "private") = true →
      (resourceRabataS3BucketRead sfx env d).2.1.grant = none ∧
      ReadEvent.getBucketAcl ∉ (resourceRabataS3BucketRead sfx env d).2.2)
    ∧ (∀ (sfx : String) (env : BucketReadEnv) (d : BucketRD)
      (out : GetBucketAclOutput),
      env.headAttempts = [none] →
      (d.acl != "" && d.acl != "private") = false →
      env.aclResult = Sum.inr out →
      (resourceRabataS3BucketRead sfx env d).2.1.grant = some (flattenGrants out) ∧
      ReadEvent.getBucketAcl ∈ (resourceRabataS3BucketRead sfx env d).2.2)
    ∧ (∀ (ownerId gid guri gtype : Option String),
      stringValue gid = stringValue ownerId →
      flattenGrants ⟨ownerId, [⟨gtype, gid, guri, some "FULL_CONTROL"⟩]⟩ = []) := by
  refine ⟨?_, ?_, ?_⟩
  · intro sfx env d hatt hacl
    have hrun : retryContextRun (headClassify d.isNew) [none] = (none, 1) := rfl
    unfold resourceRabataS3BucketRead
    simp only [hatt, hrun, isResourceTimeoutError, Bool.false_eq_true, if_false,
      isAWSErr_none, Bool.or_self, List.take, List.map, hacl, if_true]
    rcases hb : d.bucket with _ | b <;>
      rcases hr : env.regionResult with e | r <;>
        simp [readRegionStep, hb, hr, hacl, isAWSErrRequestFailureStatusCode]
  · intro sfx env d out hatt hacl haclres
    have hrun : retryContextRun (headClassify d.isNew) [none] = (none, 1) := rfl
    unfold resourceRabataS3BucketRead
    simp only [hatt, hrun, isResourceTimeoutError, Bool.false_eq_true, if_false,
      isAWSErr_none, Bool.or_self, List.take, List.map, hacl, haclres]
    rcases hb : d.bucket with _ | b <;>
      rcases hr : env.regionResult with e | r <;>
        simp [readRegionStep, hb, hr, hacl, haclres, isAWSErrRequestFailureStatusCode]
  · intro ownerId gid guri gtype h
    simp only [flattenGrants]
    rw [h]
    simp [stringValue]

/-- Witness for C10: a public-read acl resets grant without the ACL
call; a private acl fetches and flattens a remote owner-only ACL to the
empty set. -/
theorem claim_C10_witness :
    ((resourceRabataS3BucketRead "sfx"
        ⟨[none], none, Sum.inr ⟨some "o", [⟨some "CanonicalUser", some "o", none,
          some "FULL_CONTROL"⟩]⟩, Sum.inr "r"⟩
        { c3Bucket with acl := "public-read" }).2.1.grant = none
      ∧ ReadEvent.getBucketAcl ∉ (resourceRabataS3BucketRead "sfx"
        ⟨[none], none, Sum.inr ⟨some "o", [⟨some "CanonicalUser", some "o", none,
          some "FULL_CONTROL"⟩]⟩, Sum.inr "r"⟩
        { c3Bucket with acl := "public-read" }).2.2)
    ∧ (resourceRabataS3BucketRead "sfx"
        ⟨[none], none, Sum.inr ⟨some "o", [⟨some "CanonicalUser", some "o", none,
          some "FULL_CONTROL"⟩]⟩, Sum.inr "r"⟩
        c3Bucket).2.1.grant = some []
    ∧ flattenGrants ⟨some "o", [⟨some "CanonicalUser", some "o", none,
        some "FULL_CONTROL"⟩]⟩ = [] := by
  have hflat := claim_C10_acl_grant_exclusivity.2.2 (some "o") (some "o") none
    (some "CanonicalUser") rfl
  refine ⟨claim_C10_acl_grant_exclusivity.1 "sfx" _ _ rfl (by decide), ?_, hflat⟩
  have h := (claim_C10_acl_grant_exclusivity.2.1 "sfx"
    ⟨[none], none, Sum.inr ⟨some "o", [⟨some "CanonicalUser", some "o", none,
      some "FULL_CONTROL"⟩]⟩, Sum.inr "r"⟩
    c3Bucket _ rfl (by decide) rfl).1
  rw [h, hflat]

theorem objectRead_events (hr : GoError ⊕ HeadObjectOutput) (d : ObjectRD) :
    (resourceRabataS3BucketObjectRead hr d).2.2 = [ObjEvent.headObject] := by
  rcases hr with e | resp
  · simp only [resourceRabataS3BucketObjectRead]
    split <;> rfl
  · rfl

/-- The body carried by the first event when it is a `PutObject` call. -/
def firstPutBody (evs : List ObjEvent) : Option ObjBody :=
  match evs with
  | ObjEvent.putObject inp :: _ => some inp.body
  | _ => none

theorem objectPut_no_acl_event (env : PutEnv) (d : ObjectRD) (a : String) :
    ObjEvent.putObjectAcl a ∉ (resourceRabataS3BucketObjectPut env d).2.2 := by
  unfold resourceRabataS3BucketObjectPut
  rcases hs : selectObjectBody env d with body | msg
  · rcases hpr : env.putResult with _ | e
    · simp [hpr, objectRead_events]
    · simp [hpr]
  · simp

theorem objectPut_body_used (env : PutEnv) (d : ObjectRD) (body : ObjBody)
    (h : selectObjectBody env d = Sum.inl body) :
    firstPutBody (resourceRabataS3BucketObjectPut env d).2.2 = some body := by
  unfold resourceRabataS3BucketObjectPut
  rw [h]
  rcases hpr : env.putResult with _ | e
  · simp [hpr, firstPutBody]
  · simp [hpr, firstPutBody]

theorem objectPut_aborts (env : PutEnv) (d : ObjectRD) (msg : String)
    (h : selectObjectBody env d = Sum.inr msg) :
    resourceRabataS3BucketObjectPut env d = (some msg, d, []) := by
  unfold resourceRabataS3BucketObjectPut
  rw [h]

theorem objectUpdate_no_put_event (env : PutEnv) (hasChange : String → Bool)
    (d : ObjectRD) (hnc : objectContentAttrs.any hasChange = false)
    (inp : PutInputModel) :
    ObjEvent.putObject inp ∉ (resourceRabataS3BucketObjectUpdate env hasChange d).2.2 := by
  unfold resourceRabataS3BucketObjectUpdate
  simp only [hnc, Bool.false_eq_true, if_false]
  rcases ha : hasChange "acl" with _ | _
  · simp only [Bool.false_eq_true, if_false]
    simp [objectRead_events]
  · simp only [if_true]
    rcases hpr : env.putAclResult with _ | e
    · simp [hpr, objectRead_events]
    · simp [hpr]

/-- Claim C4: object Update takes exactly one of two paths, never both:
a change to any content-affecting attribute delegates to the full Put
re-upload, during which no separate `PutObjectAcl` is ever issued; with
no such change, an `acl` change issues `PutObjectAcl` and no
`PutObject`; and no run of Update ever issues both a `PutObject` and a
`PutObjectAcl`. -/
theorem claim_C4_update_exclusive_paths :
    (∀ (env : PutEnv) (hasChange : String → Bool) (d : ObjectRD),
      objectContentAttrs.any hasChange = true →
      resourceRabataS3BucketObjectUpdate env hasChange d =
        resourceRabataS3BucketObjectPut env d ∧
      ∀ a, ObjEvent.putObjectAcl a ∉
        (resourceRabataS3BucketObjectUpdate env hasChange d).2.2)
    ∧ (∀ (env : PutEnv) (hasChange : String → Bool) (d : ObjectRD),
      objectContentAttrs.any hasChange = false →
      hasChange "acl" = true →
      ObjEvent.putObjectAcl d.acl ∈
        (resourceRabataS3BucketObjectUpdate env hasChange d).2.2 ∧
      ∀ inp, ObjEvent.putObject inp ∉
        (resourceRabataS3BucketObjectUpdate env hasChange d).2.2)
    ∧ (∀ (env : PutEnv) (hasChange : String → Bool) (d : ObjectRD),
      ¬((∃ inp, ObjEvent.putObject inp ∈
          (resourceRabataS3BucketObjectUpdate env hasChange d).2.2) ∧
        (∃ a, ObjEvent.putObjectAcl a ∈
          (resourceRabataS3BucketObjectUpdate env hasChange d).2.2))) := by
  refine ⟨?_, ?_, ?_⟩
  · intro env hasChange d hc
    have hdeleg : resourceRabataS3BucketObjectUpdate env hasChange d =
        resourceRabataS3BucketObjectPut env d := by
      unfold resourceRabataS3BucketObjectUpdate
      simp [hc]
    refine ⟨hdeleg, fun a => ?_⟩
    rw [hdeleg]
    exact objectPut_no_acl_event env d a
  · intro env hasChange d hnc ha
    refine ⟨?_, fun inp => objectUpdate_no_put_event env hasChange d hnc inp⟩
    unfold resourceRabataS3BucketObjectUpdate
    simp only [hnc, Bool.false_eq_true, if_false, ha, if_true]
    rcases hpr : env.putAclResult with _ | e
    · simp [hpr, objectRead_events]
    · simp [hpr]
  · intro env hasChange d hboth
    obtain ⟨⟨inp, hput⟩, ⟨a, hacl⟩⟩ := hboth
    rcases hc : objectContentAttrs.any hasChange with _ | _
    · exact objectUpdate_no_put_event env hasChange d hc inp hput
    · have hdeleg : resourceRabataS3BucketObjectUpdate env hasChange d =
          resourceRabataS3BucketObjectPut env d := by
        unfold resourceRabataS3BucketObjectUpdate
        simp [hc]
      rw [hdeleg] at hacl
      exact objectPut_no_acl_event env d a hacl

/-- An all-defaults object ResourceData (no content source, private
acl). -/
def c5Obj : ObjectRD :=
  ⟨"", "b", "k", "private", "", "", "", "", "", [], "", "", "", "", "", "", false⟩

/-- A benign environment: homedir expansion is the identity, files open,
all calls succeed, the head returns an empty response. -/
def c5Env : PutEnv :=
  ⟨fun s => Sum.inr s, fun _ => Sum.inr (), none, none,
    Sum.inr ⟨none, none, none, none, none, [], none, none, none⟩⟩

/-- Witness for C4: with a changed `content` attribute Update delegates
to Put and issues no ACL call; with only `acl` changed it issues exactly
the ACL call and no `PutObject`. -/
theorem claim_C4_witness :
    (resourceRabataS3BucketObjectUpdate c5Env (fun k => k == "content") c5Obj =
        resourceRabataS3BucketObjectPut c5Env c5Obj
      ∧ ∀ a, ObjEvent.putObjectAcl a ∉
          (resourceRabataS3BucketObjectUpdate c5Env (fun k => k == "content") c5Obj).2.2)
    ∧ (ObjEvent.putObjectAcl "private" ∈
        (resourceRabataS3BucketObjectUpdate c5Env (fun k => k == "acl") c5Obj).2.2
      ∧ ∀ inp, ObjEvent.putObject inp ∉
          (resourceRabataS3BucketObjectUpdate c5Env (fun k => k == "acl") c5Obj).2.2) := by
  constructor
  · exact claim_C4_update_exclusive_paths.1 c5Env (fun k => k == "content") c5Obj
      (by decide)
  · exact claim_C4_update_exclusive_paths.2.1 c5Env (fun k => k == "acl") c5Obj
      (by decide) (by decide)

/-- Claim C5 (amended): object Put selects the request body from exactly
one source in priority order — the file at the expanded `source` path if
`source` is set (expansion or open failures abort before any call), else
the literal `content`, else the base64-decoding of `content_base64`
(decode failures abort before any call); when none of the three is set
the `PutObject` call is still issued, with a nil body — the operation
does not fail. -/
theorem claim_C5_body_selection :
    (∀ (env : PutEnv) (d : ObjectRD) (path : String),
      d.source ≠ "" → env.expandHome d.source = Sum.inr path →
      env.openFile path = Sum.inr () →
      firstPutBody (resourceRabataS3BucketObjectPut env d).2.2 =
        some (ObjBody.fromFile path))
    ∧ (∀ (env : PutEnv) (d : ObjectRD) (e : GoError),
      d.source ≠ "" → env.expandHome d.source = Sum.inl e →
      resourceRabataS3BucketObjectPut env d =
        (some "Error expanding homedir in source", d, []))
    ∧ (∀ (env : PutEnv) (d : ObjectRD) (path : String) (e : GoError),
      d.source ≠ "" → env.expandHome d.source = Sum.inr path →
      env.openFile path = Sum.inl e →
      resourceRabataS3BucketObjectPut env d =
        (some "Error opening S3 bucket object source", d, []))
    ∧ (∀ (env : PutEnv) (d : ObjectRD),
      d.source = "" → d.content ≠ "" →
      firstPutBody (resourceRabataS3BucketObjectPut env d).2.2 =
        some (ObjBody.fromContent d.content))
    ∧ (∀ (env : PutEnv) (d : ObjectRD) (bs : List Nat),
      d.source = "" → d.content = "" → d.contentBase64 ≠ "" →
      decodeBase64 d.contentBase64 = some bs →
      firstPutBody (resourceRabataS3BucketObjectPut env d).2.2 =
        some (ObjBody.fromBase64 bs))
    ∧ (∀ (env : PutEnv) (d : ObjectRD),
      d.source = "" → d.content = "" → d.contentBase64 ≠ "" →
      decodeBase64 d.contentBase64 = none →
      resourceRabataS3BucketObjectPut env d =
        (some "error decoding content_base64", d, []))
    ∧ (∀ (env : PutEnv) (d : ObjectRD),
      d.source = "" → d.content = "" → d.contentBase64 = "" →
      firstPutBody (resourceRabataS3BucketObjectPut env d).2.2 =
        some ObjBody.noBody) := by
  refine ⟨?_, ?_, ?_, ?_, ?_, ?_, ?_⟩
  · intro env d path hsrc hexp hopen
    have hb : (d.source != "") = true := bne_iff_ne.mpr hsrc
    exact objectPut_body_used env d _ (by simp [selectObjectBody, hb, hexp, hopen])
  · intro env d e hsrc hexp
    have hb : (d.source != "") = true := bne_iff_ne.mpr hsrc
    exact objectPut_aborts env d _ (by simp [selectObjectBody, hb, hexp])
  · intro env d path e hsrc hexp hopen
    have hb : (d.source != "") = true := bne_iff_ne.mpr hsrc
    exact objectPut_aborts env d _ (by simp [selectObjectBody, hb, hexp, hopen])
  · intro env d hsrc hcont
    have hb0 : (d.source != "") = false := by simp [hsrc]
    have hbc : (d.content != "") = true := bne_iff_ne.mpr hcont
    exact objectPut_body_used env d _ (by simp [selectObjectBody, hb0, hbc])
  · intro env d bs hsrc hcont hb64 hdec
    have hb0 : (d.source != "") = false := by simp [hsrc]
    have hbc : (d.content != "") = false := by simp [hcont]
    have hbb : (d.contentBase64 != "") = true := bne_iff_ne.mpr hb64
    exact objectPut_body_used env d _ (by simp [selectObjectBody, hb0, hbc, hbb, hdec])
  · intro env d hsrc hcont hb64 hdec
    have hb0 : (d.source != "") = false := by simp [hsrc]
    have hbc : (d.content != "") = false := by simp [hcont]
    have hbb : (d.contentBase64 != "") = true := bne_iff_ne.mpr hb64
    exact objectPut_aborts env d _ (by simp [selectObjectBody, hb0, hbc, hbb, hdec])
  · intro env d hsrc hcont hb64
    have hb0 : (d.source != "") = false := by simp [hsrc]
    have hbc : (d.content != "") = false := by simp [hcont]
    have hbb : (d.contentBase64 != "") = false := by simp [hb64]
    exact objectPut_body_used env d _ (by simp [selectObjectBody, hb0, hbc, hbb])

/-- Counterexample to C5 as stated: with none of `source`, `content`,
`content_base64` set, the handler does not fail — it issues the
`PutObject` call with a nil body and succeeds. -/
theorem claim_C5_counterexample :
    c5Obj.source = "" ∧ c5Obj.content = "" ∧ c5Obj.contentBase64 = ""
    ∧ (resourceRabataS3BucketObjectPut c5Env c5Obj).1 = none
    ∧ firstPutBody (resourceRabataS3BucketObjectPut c5Env c5Obj).2.2 =
        some ObjBody.noBody := ⟨rfl, rfl, rfl, rfl, rfl⟩

/-- Witness for C5 at concrete inputs: each of the three sources, when
it is the highest-priority one set, supplies the body. -/
theorem claim_C5_witness :
    firstPutBody (resourceRabataS3BucketObjectPut c5Env
        { c5Obj with source := "f.txt" }).2.2 = some (ObjBody.fromFile "f.txt")
    ∧ firstPutBody (resourceRabataS3BucketObjectPut c5Env
        { c5Obj with content := "hello" }).2.2 = some (ObjBody.fromContent "hello")
    ∧ firstPutBody (resourceRabataS3BucketObjectPut c5Env
        { c5Obj with contentBase64 := "aGk=" }).2.2 =
      some (ObjBody.fromBase64 [104, 105]) := by
  refine ⟨?_, ?_, ?_⟩
  · exact claim_C5_body_selection.1 c5Env _ "f.txt" (by decide) rfl rfl
  · exact claim_C5_body_selection.2.2.2.1 c5Env _ rfl (by decide)
  · exact claim_C5_body_selection.2.2.2.2.1 c5Env _ [104, 105] rfl rfl (by decide) rfl
